import Mathlib

/-!
# ipydatagrid — verification of the selection model and data indexing layer

Shallow embedding of `ipydatagrid/datagrid.py`: the selection-region model
(`SelectionIterator`, `SelectionHelper`), the `DataGrid` selection controller
(`select`, the `selections` / `editable` validators), and the tabular data
indexing layer (`_column_index_to_name`, `_get_row_index_of_primary_key`,
`set_cell_value`, `_notify_cell_change`).

Python integers are modelled as `Int` (row/column coordinates) or `Nat`
(list indices that are only ever non-negative).  `floor(index / num_cols)`
and Python's `%` are floor division and floor modulus, i.e. `Int.fdiv` and
`Int.fmod`.  Python `None` is `Option.none`; a raised `ValueError` is
`Except.error`.
-/

namespace IpyDataGrid

/-- Column names.  The source also allows tuples of strings for hierarchical
columns; only the name's identity (equality) matters to the functions
modelled here, so a single opaque name type suffices. -/
abbrev ColName := String

/-- A scalar cell value.  Only equality on values is relevant to the modelled
code paths (primary-key comparison, cell writes). -/
inductive CellValue where
  | int (n : Int)
  | str (s : String)
  | bool (b : Bool)
deriving DecidableEq

/-- The column-major data table behind `self._data["data"]` (a pandas
DataFrame with a default `RangeIndex`, so `.loc[row_index, column]` addresses
the cell at ordinal `row_index` of the named column).  `nrows` models
`len(df)`. -/
structure DataFrame where
  cols : List (ColName × List CellValue)
  nrows : Nat
deriving DecidableEq

/-- `column_name in df` — column membership. -/
def DataFrame.hasColumn (df : DataFrame) (name : ColName) : Bool :=
  df.cols.any (fun p => p.1 == name)

/-- `df[name]` — the values of a column, `none` when the column is absent. -/
def DataFrame.getCol (df : DataFrame) (name : ColName) : Option (List CellValue) :=
  (df.cols.find? (fun p => p.1 == name)).map (·.2)

/-- `df[name][row]` — a single cell. -/
def DataFrame.getCell (df : DataFrame) (name : ColName) (row : Nat) : Option CellValue :=
  (df.getCol name).bind (fun l => l[row]?)

/-- `df.loc[row, name] = v` — write one cell in place (the source only
writes to an existing column and an existing row label). -/
def DataFrame.setCell (df : DataFrame) (name : ColName) (row : Nat) (v : CellValue) : DataFrame :=
  { df with cols := df.cols.map (fun p => if p.1 == name then (p.1, p.2.set row v) else p) }

/-- A real pandas frame has pairwise-distinct column names (enforced by
`DataGrid._validate_data`) and every column of length `len(df)`. -/
def DataFrame.WF (df : DataFrame) : Prop :=
  (df.cols.map Prod.fst).Nodup ∧ ∀ p ∈ df.cols, p.2.length = df.nrows

instance (df : DataFrame) : Decidable df.WF := by
  unfold DataFrame.WF; infer_instance

/-- `self._data["schema"]`: the ordered field names and the primary key
(user index levels plus the `ipydguuid` surrogate, always appended last by
`generate_data_object`).  `primaryKey` is optional because
`SelectionHelper._get_num_columns` / `DataGrid._get_col_headers` guard
against a missing `"primaryKey"` key. -/
structure Schema where
  fields : List ColName
  primaryKey : Option (List ColName)
deriving DecidableEq

/-- `self._data`: data produced by `generate_data_object` always carries both
the `"data"` and `"schema"` keys, so they are total here; the defensive
`"schema" not in data` / `"data" not in data` branches of the source are
statically dead for such data and are elided. -/
structure GridData where
  data : DataFrame
  schema : Schema
deriving DecidableEq

/-- `primary_keys = [] if "primaryKey" not in data["schema"] else …`. -/
def primaryKeysOf (sch : Schema) : List ColName :=
  sch.primaryKey.getD []

/-! ## Selection rectangles and the traversal iterator -/

/-- A selection rectangle `{'r1': …, 'c1': …, 'r2': …, 'c2': …}`. -/
structure Rect where
  r1 : Int
  c1 : Int
  r2 : Int
  c2 : Int
deriving DecidableEq

/-- A cell `{'r': …, 'c': …}`. -/
structure Cell where
  r : Int
  c : Int
deriving DecidableEq

/-- `SelectionIterator._index_to_row_col`. -/
def indexToRowCol (rect : Rect) (index : Nat) : Option Cell :=
  let num_rows : Int := rect.r2 - rect.r1 + 1
  let num_cols : Int := rect.c2 - rect.c1 + 1
  if (index : Int) > num_rows * num_cols - 1 then none
  else some ⟨rect.r1 + Int.fdiv index num_cols, rect.c1 + Int.fmod index num_cols⟩

/-- Number of linear indices the iterator enumerates for one rectangle
(the first `index` with `_index_to_row_col … = None`). -/
def rectSize (rect : Rect) : Nat :=
  ((rect.r2 - rect.r1 + 1) * (rect.c2 - rect.c1 + 1)).toNat

/-- The cell at linear index `i` of a rectangle (the `some` payload of
`indexToRowCol`). -/
def rectCell (rect : Rect) (i : Nat) : Cell :=
  ⟨rect.r1 + Int.fdiv i (rect.c2 - rect.c1 + 1),
   rect.c1 + Int.fmod i (rect.c2 - rect.c1 + 1)⟩

/-- All cells one rectangle contributes, in the iterator's linear-index
order (`cell_index = 0, 1, 2, …` until `_index_to_row_col` returns `None`). -/
def rectCells (rect : Rect) : List Cell :=
  (List.range (rectSize rect)).filterMap (indexToRowCol rect)

/-- `SelectionIterator._cell_in_rect` (inclusive bounds). -/
def cellInRect (cell : Cell) (rect : Rect) : Bool :=
  decide (rect.r1 ≤ cell.r ∧ cell.r ≤ rect.r2 ∧ rect.c1 ≤ cell.c ∧ cell.c ≤ rect.c2)

/-- `SelectionIterator._cell_in_previous_selected_rects`, with `prev` the
rectangles at indices `0 .. rect_index - 1`. -/
def cellInAny (prev : List Rect) (cell : Cell) : Bool :=
  prev.any (cellInRect cell)

/-- The sequence of cells `SelectionIterator.__next__` yields: rectangle by
rectangle in list order, each rectangle's cells in linear-index order,
skipping any cell contained in an earlier rectangle. -/
def selectionCellsAux : List Rect → List Rect → List Cell
  | _, [] => []
  | prev, rect :: rest =>
      (rectCells rect).filter (fun c => !cellInAny prev c)
        ++ selectionCellsAux (prev ++ [rect]) rest

/-- Full traversal of a selection list (`list(SelectionIterator(selections))`). -/
def selectionCells (sels : List Rect) : List Cell :=
  selectionCellsAux [] sels

/-! ## SelectionHelper: mode expansion with cached row/column counts -/

inductive SelectionMode where
  | row
  | column
  | cell
  | none
deriving DecidableEq

/-- Column count used by `row`-mode expansion:
`SelectionHelper._get_num_columns`'s computation — schema fields that are not
primary-key fields. -/
def computeNumColumns (d : GridData) : Int :=
  ((d.schema.fields.filter (fun name => !(primaryKeysOf d.schema).contains name)).length : Int)

/-- Row count used by `column`-mode expansion:
`SelectionHelper._get_num_rows`'s computation — `len(data["data"])`. -/
def computeNumRows (d : GridData) : Int :=
  (d.data.nrows : Int)

/-- The helper's mutable caches `_num_columns` / `_num_rows`, initialised to
`-1` ("not computed yet"). -/
structure HelperState where
  numColumns : Int
  numRows : Int
deriving DecidableEq

def initHelperState : HelperState := ⟨-1, -1⟩

/-- `SelectionHelper._get_num_columns` with its cache. -/
def getNumColumnsS (d : GridData) (st : HelperState) : Int × HelperState :=
  if st.numColumns ≠ -1 then (st.numColumns, st)
  else
    let n := computeNumColumns d
    (n, { st with numColumns := n })

/-- `SelectionHelper._get_num_rows` with its cache. -/
def getNumRowsS (d : GridData) (st : HelperState) : Int × HelperState :=
  if st.numRows ≠ -1 then (st.numRows, st)
  else
    let n := computeNumRows d
    (n, { st with numRows := n })

/-- `SelectionHelper._transform_rect_for_selection_mode`, threading the
cache state. -/
def transformRectS (d : GridData) (mode : SelectionMode) (rect : Rect) (st : HelperState) :
    Rect × HelperState :=
  match mode with
  | SelectionMode.row =>
      let (nc, st') := getNumColumnsS d st
      (⟨rect.r1, 0, rect.r2, nc - 1⟩, st')
  | SelectionMode.column =>
      let (nr, st') := getNumRowsS d st
      (⟨0, rect.c1, nr - 1, rect.c2⟩, st')
  | _ => (rect, st)

/-- The transform mapped across the stored selections (the list comprehension
in `SelectionHelper.__iter__`), threading the caches left to right. -/
def transformAllS (d : GridData) (mode : SelectionMode) :
    List Rect → HelperState → List Rect × HelperState
  | [], st => ([], st)
  | rect :: rest, st =>
      let (r', st') := transformRectS d mode rect st
      let (rs', st'') := transformAllS d mode rest st'
      (r' :: rs', st'')

/-- The effective rectangles a fresh traversal iterates (a fresh
`SelectionHelper` starts with both caches at `-1`). -/
def effectiveRects (d : GridData) (mode : SelectionMode) (sels : List Rect) : List Rect :=
  (transformAllS d mode sels initHelperState).1

/-- Cache-free transform: what each effective rectangle works out to. -/
def transformRect (d : GridData) (mode : SelectionMode) (rect : Rect) : Rect :=
  match mode with
  | SelectionMode.row => ⟨rect.r1, 0, rect.r2, computeNumColumns d - 1⟩
  | SelectionMode.column => ⟨0, rect.c1, computeNumRows d - 1, rect.c2⟩
  | _ => rect

/-- `SelectionHelper.all()` — the full traversal of the grid's selections
under the active selection mode. -/
def helperAll (d : GridData) (mode : SelectionMode) (sels : List Rect) : List Cell :=
  selectionCells (effectiveRects d mode sels)

/-! ## DataGrid selection controller -/

inductive ClearMode where
  | all
  | current
  | none
deriving DecidableEq

/-- The controller state touched by the selection API: the `selection_mode`
and `editable` traits and the `selections` list. -/
structure GridState where
  selection_mode : SelectionMode
  selections : List Rect
  editable : Bool
deriving DecidableEq

/-- `DataGrid.select`.  `row2`/`column2` default to `None`; when either is
`None` both end coordinates fall back to `row1, column1`.  `clear_mode`
`'all'` empties the list first, `'current'` pops the last rectangle
(`dropLast` is the identity on `[]`, matching the `len > 0` guard), `'none'`
keeps it.  The appended rectangle is normalised with `min`/`max`.
The source never consults `selection_mode` here. -/
def select (s : GridState) (row1 column1 : Int) (row2 column2 : Option Int)
    (clear_mode : ClearMode) : GridState :=
  let rc : Int × Int :=
    match row2, column2 with
    | some r2, some c2 => (r2, c2)
    | _, _ => (row1, column1)
  let sels : List Rect :=
    match clear_mode with
    | ClearMode.all => []
    | ClearMode.current => s.selections.dropLast
    | ClearMode.none => s.selections
  { s with
    selections :=
      sels ++ [⟨min row1 rc.1, min column1 rc.2, max row1 rc.1, max column1 rc.2⟩] }

/-- `DataGrid._validate_selections` — the traitlets validator run on direct
assignment of the `selections` list; rewrites every rectangle into
normalised form. -/
def validate_selections (sels : List Rect) : List Rect :=
  sels.map (fun rectangle =>
    ⟨min rectangle.r1 rectangle.r2, min rectangle.c1 rectangle.c2,
     max rectangle.r1 rectangle.r2, max rectangle.c1 rectangle.c2⟩)

/-- `DataGrid._validate_editable` — the validator run on assignment of
`editable`; as a side effect flips `selection_mode` from `'none'` to
`'cell'` when enabling editing. -/
def validate_editable (s : GridState) (value : Bool) : GridState :=
  let s' :=
    if value && (s.selection_mode == SelectionMode.none) then
      { s with selection_mode := SelectionMode.cell }
    else s
  { s' with editable := value }

/-! ## Column and primary-key resolution -/

/-- `DataGrid._get_col_headers` — schema field names that are not
primary-key fields. -/
def getColHeaders (sch : Schema) : List ColName :=
  sch.fields.filter (fun name => !(primaryKeysOf sch).contains name)

/-- `DataGrid._column_index_to_name`.  (The `"schema" not in data` guard is
statically dead for generated grid data, see `GridData`.) -/
def column_index_to_name (d : GridData) (column_index : Nat) : Option ColName :=
  let col_headers := getColHeaders d.schema
  if col_headers.length ≤ column_index then none else col_headers[column_index]?

/-- `DataGrid._column_name_to_index` — first index of the name among the
data-column headers, `none` when absent (the swallowed `ValueError`). -/
def column_name_to_index (d : GridData) (column_name : ColName) : Option Nat :=
  (getColHeaders d.schema).indexOf? column_name

/-- One row of `(df[key] == value).all(axis="columns")`: every surrogate-
excluded primary-key column equals the corresponding component of the
given key value at row `i`. -/
def rowMatchesKey (d : GridData) (key : List ColName) (value : List CellValue) (i : Nat) : Bool :=
  (key.zip value).all (fun kv => d.data.getCell kv.1 i == some kv.2)

/-- `DataGrid._get_row_index_of_primary_key`.  The argument is the key value
already in list form (the source wraps a scalar into a one-element list
first).  A length mismatch raises `ValueError`. -/
def get_row_index_of_primary_key (d : GridData) (value : List CellValue) :
    Except String (List Nat) :=
  let key := (primaryKeysOf d.schema).dropLast
  if value.length ≠ key.length then
    Except.error
      "The provided primary key value must be the same length as the primary key."
  else
    Except.ok ((List.range d.data.nrows).filter (rowMatchesKey d key value))

/-- The payload `DataGrid._notify_cell_change` delivers, identically, to the
local callback dispatcher and to the front-end comm channel. -/
structure CellChange where
  row : Nat
  column : ColName
  column_index : Option Nat
  value : CellValue
deriving DecidableEq

/-- `DataGrid._notify_cell_change` — builds the payload sent to both sinks. -/
def notify_cell_change (d : GridData) (row : Nat) (column : ColName) (value : CellValue) :
    CellChange :=
  { row := row, column := column, column_index := column_name_to_index d column, value := value }

/-- One iteration of the write loop in `DataGrid.set_cell_value`.
`row_index is not None` is always true for indices produced by
`_get_row_index_of_primary_key`, so only the column-membership test remains. -/
def setCellStep (column_name : ColName) (new_value : CellValue)
    (acc : GridData × List CellChange × Bool) (row_index : Nat) :
    GridData × List CellChange × Bool :=
  let (g, ns, outcome) := acc
  if g.data.hasColumn column_name then
    let g' : GridData := { g with data := g.data.setCell column_name row_index new_value }
    (g', ns ++ [notify_cell_change g' row_index column_name new_value], outcome)
  else
    (g, ns, false)

/-- `DataGrid.set_cell_value` — resolves the primary key, bails out with
`False` (and no mutation, no notification) when no row matches, otherwise
writes each matching row and notifies per written row; the outcome flips to
`False` if the target column is missing. -/
def set_cell_value (d : GridData) (column_name : ColName) (primary_key_value : List CellValue)
    (new_value : CellValue) : Except String (GridData × List CellChange × Bool) :=
  match get_row_index_of_primary_key d primary_key_value with
  | Except.error e => Except.error e
  | Except.ok row_indices =>
      if row_indices.isEmpty then Except.ok (d, [], false)
      else Except.ok (row_indices.foldl (setCellStep column_name new_value) (d, [], true))

/-- A stored rectangle in normalised form (the `SelectionRegion` invariant). -/
def Rect.Normalized (rect : Rect) : Prop :=
  rect.r1 ≤ rect.r2 ∧ rect.c1 ≤ rect.c2

instance (rect : Rect) : Decidable rect.Normalized := by
  unfold Rect.Normalized; infer_instance

/-- Both dimension counts of a rectangle are non-negative.  Every effective
rectangle produced from normalised stored selections satisfies this. -/
def Rect.DimsNonneg (rect : Rect) : Prop :=
  0 ≤ rect.r2 - rect.r1 + 1 ∧ 0 ≤ rect.c2 - rect.c1 + 1

instance (rect : Rect) : Decidable rect.DimsNonneg := by
  unfold Rect.DimsNonneg; infer_instance

/-- Helper-cache soundness: each cache is either unset (`-1`) or holds the
value the computation would produce. -/
def HelperState.Inv (d : GridData) (st : HelperState) : Prop :=
  (st.numColumns = -1 ∨ st.numColumns = computeNumColumns d)
  ∧ (st.numRows = -1 ∨ st.numRows = computeNumRows d)

/-! ## A concrete example grid (the repository's test fixture:
columns `A = [1,2,3]`, `B = [4,5,6]`, index `"One","Two","Three"`). -/

def exDf : DataFrame :=
  ⟨[("key", [CellValue.str "One", CellValue.str "Two", CellValue.str "Three"]),
    ("A", [CellValue.int 1, CellValue.int 2, CellValue.int 3]),
    ("B", [CellValue.int 4, CellValue.int 5, CellValue.int 6]),
    ("ipydguuid", [CellValue.int 0, CellValue.int 1, CellValue.int 2])], 3⟩

def exSchema : Schema :=
  ⟨["key", "A", "B", "ipydguuid"], some ["key", "ipydguuid"]⟩

def exData : GridData := ⟨exDf, exSchema⟩


/-! ## Facts about one rectangle's enumeration -/

theorem Rect.Normalized.dimsNonneg {rect : Rect} (h : rect.Normalized) : rect.DimsNonneg := by
  obtain ⟨h1, h2⟩ := h
  exact ⟨by omega, by omega⟩

/-- Uniqueness of the floor-division decomposition. -/
theorem fdiv_fmod_unique {C q r n : Int} (hC : 0 < C) (hr0 : 0 ≤ r) (hrC : r < C)
    (hn : n = C * q + r) : n.fdiv C = q ∧ n.fmod C = r := by
  have h1 := Int.fdiv_add_fmod n C
  have h2 := Int.fmod_nonneg' n hC
  have h3 := Int.fmod_lt_of_pos n hC
  have hq : n.fdiv C = q := by nlinarith [h1, h2, h3]
  refine ⟨hq, ?_⟩
  rw [hq] at h1
  linarith

theorem indexToRowCol_eq_some {rect : Rect} {i : Nat} (h : i < rectSize rect) :
    indexToRowCol rect i = some (rectCell rect i) := by
  have hP : (i : Int) ≤ (rect.r2 - rect.r1 + 1) * (rect.c2 - rect.c1 + 1) - 1 := by
    unfold rectSize at h; omega
  unfold indexToRowCol rectCell
  rw [if_neg (by omega)]

theorem indexToRowCol_eq_none {rect : Rect} {i : Nat} (h : rectSize rect ≤ i) :
    indexToRowCol rect i = none := by
  have hP : (rect.r2 - rect.r1 + 1) * (rect.c2 - rect.c1 + 1) - 1 < (i : Int) := by
    unfold rectSize at h; omega
  unfold indexToRowCol
  rw [if_pos (by omega)]

theorem rectCells_eq_map (rect : Rect) :
    rectCells rect = (List.range (rectSize rect)).map (rectCell rect) := by
  unfold rectCells
  have aux : ∀ n, n ≤ rectSize rect →
      (List.range n).filterMap (indexToRowCol rect) = (List.range n).map (rectCell rect) := by
    intro n
    induction n with
    | zero => intro _; simp
    | succ m ih =>
        intro hm
        rw [List.range_succ, List.filterMap_append, List.map_append, ih (by omega)]
        simp [indexToRowCol_eq_some (show m < rectSize rect by omega)]
  exact aux _ le_rfl

/-- Positive size forces both dimension counts positive, for a rectangle with
non-negative dimensions. -/
theorem dims_pos_of_size_pos {rect : Rect} (hd : rect.DimsNonneg) (h : 0 < rectSize rect) :
    0 < rect.r2 - rect.r1 + 1 ∧ 0 < rect.c2 - rect.c1 + 1 := by
  obtain ⟨hR, hC⟩ := hd
  have hP : 0 < (rect.r2 - rect.r1 + 1) * (rect.c2 - rect.c1 + 1) := by
    unfold rectSize at h; omega
  constructor
  · by_contra h'
    have h0 : rect.r2 - rect.r1 + 1 = 0 := by omega
    rw [h0, zero_mul] at hP
    omega
  · by_contra h'
    have h0 : rect.c2 - rect.c1 + 1 = 0 := by omega
    rw [h0, mul_zero] at hP
    omega

/-- Every enumerated cell of a rectangle with non-negative dimensions lies in
the rectangle (inclusive-bounds containment). -/
theorem rectCell_in_rect {rect : Rect} {i : Nat} (hd : rect.DimsNonneg) (h : i < rectSize rect) :
    cellInRect (rectCell rect i) rect = true := by
  obtain ⟨hR, hC⟩ := dims_pos_of_size_pos hd (by omega)
  have hiP : (i : Int) < (rect.r2 - rect.r1 + 1) * (rect.c2 - rect.c1 + 1) := by
    unfold rectSize at h; omega
  have h1 := Int.fdiv_add_fmod (i : Int) (rect.c2 - rect.c1 + 1)
  have h2 := Int.fmod_nonneg' (i : Int) hC
  have h3 := Int.fmod_lt_of_pos (i : Int) hC
  have hq0 : 0 ≤ Int.fdiv (i : Int) (rect.c2 - rect.c1 + 1) :=
    Int.fdiv_nonneg (by omega) (by omega)
  have hqR : Int.fdiv (i : Int) (rect.c2 - rect.c1 + 1) ≤ rect.r2 - rect.r1 := by
    by_contra hq
    push_neg at hq
    have h4 : (rect.r2 - rect.r1 + 1) * (rect.c2 - rect.c1 + 1)
        ≤ (rect.c2 - rect.c1 + 1) * Int.fdiv (i : Int) (rect.c2 - rect.c1 + 1) := by
      calc (rect.r2 - rect.r1 + 1) * (rect.c2 - rect.c1 + 1)
          = (rect.c2 - rect.c1 + 1) * (rect.r2 - rect.r1 + 1) := mul_comm _ _
        _ ≤ (rect.c2 - rect.c1 + 1) * Int.fdiv (i : Int) (rect.c2 - rect.c1 + 1) :=
            mul_le_mul_of_nonneg_left (by omega) (by omega)
    omega
  simp only [cellInRect, rectCell, decide_eq_true_eq]
  omega

/-- Conversely, every cell contained in a rectangle is enumerated:
membership in `rectCells` coincides with geometric containment. -/
theorem mem_rectCells_iff {rect : Rect} {cell : Cell} (hd : rect.DimsNonneg) :
    cell ∈ rectCells rect ↔ cellInRect cell rect = true := by
  obtain ⟨cr, cc⟩ := cell
  rw [rectCells_eq_map]
  constructor
  · intro h
    obtain ⟨i, hi, heq⟩ := List.mem_map.mp h
    exact heq ▸ rectCell_in_rect hd (List.mem_range.mp hi)
  · intro h
    simp only [cellInRect, decide_eq_true_eq] at h
    obtain ⟨hr1, hr2, hc1, hc2⟩ := h
    have hC : 0 < rect.c2 - rect.c1 + 1 := by omega
    have hI0 : 0 ≤ (rect.c2 - rect.c1 + 1) * (cr - rect.r1) + (cc - rect.c1) := by
      have := mul_nonneg (le_of_lt hC) (show (0 : Int) ≤ cr - rect.r1 by omega)
      omega
    have hmul : (rect.c2 - rect.c1 + 1) * (cr - rect.r1)
        ≤ (rect.c2 - rect.c1 + 1) * (rect.r2 - rect.r1) :=
      mul_le_mul_of_nonneg_left (by omega) (by omega)
    have hexpand : (rect.r2 - rect.r1 + 1) * (rect.c2 - rect.c1 + 1)
        = (rect.c2 - rect.c1 + 1) * (rect.r2 - rect.r1) + (rect.c2 - rect.c1 + 1) := by
      ring
    refine List.mem_map.mpr
      ⟨((rect.c2 - rect.c1 + 1) * (cr - rect.r1) + (cc - rect.c1)).toNat,
        List.mem_range.mpr ?_, ?_⟩
    · unfold rectSize; omega
    · have hcast : ((((rect.c2 - rect.c1 + 1) * (cr - rect.r1) + (cc - rect.c1)).toNat : Nat) : Int)
          = (rect.c2 - rect.c1 + 1) * (cr - rect.r1) + (cc - rect.c1) :=
        Int.toNat_of_nonneg hI0
      obtain ⟨hq, hm⟩ := fdiv_fmod_unique (q := cr - rect.r1) (r := cc - rect.c1) hC
        (by omega) (by omega) hcast
      simp only [rectCell, Cell.mk.injEq]
      rw [hq, hm]
      constructor <;> omega

/-- A rectangle's enumeration never repeats a cell. -/
theorem rectCells_nodup (rect : Rect) : (rectCells rect).Nodup := by
  rw [rectCells_eq_map]
  refine List.Nodup.map_on ?_ (List.nodup_range _)
  intro i _ j _ hij
  simp only [rectCell, Cell.mk.injEq] at hij
  have hdiv : Int.fdiv (i : Int) (rect.c2 - rect.c1 + 1)
      = Int.fdiv (j : Int) (rect.c2 - rect.c1 + 1) := by omega
  have hmod : Int.fmod (i : Int) (rect.c2 - rect.c1 + 1)
      = Int.fmod (j : Int) (rect.c2 - rect.c1 + 1) := by omega
  have h1 := Int.fdiv_add_fmod (i : Int) (rect.c2 - rect.c1 + 1)
  have h2 := Int.fdiv_add_fmod (j : Int) (rect.c2 - rect.c1 + 1)
  rw [hdiv, hmod] at h1
  omega

/-! ## Facts about the de-duplicating traversal -/

theorem selectionCellsAux_append (prev rects1 rects2 : List Rect) :
    selectionCellsAux prev (rects1 ++ rects2)
      = selectionCellsAux prev rects1 ++ selectionCellsAux (prev ++ rects1) rects2 := by
  induction rects1 generalizing prev with
  | nil => simp [selectionCellsAux]
  | cons rect rest ih =>
      simp only [List.cons_append, selectionCellsAux, List.append_assoc, List.append_eq]
      rw [ih (prev ++ [rect])]
      simp

/-- Every yielded cell escaped the earlier-rectangle containment check. -/
theorem mem_selectionCellsAux_not_prev {prev rects : List Rect} {c : Cell}
    (h : c ∈ selectionCellsAux prev rects) : cellInAny prev c = false := by
  induction rects generalizing prev with
  | nil => simp [selectionCellsAux] at h
  | cons rect rest ih =>
      simp only [selectionCellsAux, List.mem_append] at h
      rcases h with h | h
      · have := (List.mem_filter.mp h).2
        simpa using this
      · have := ih h
        simp only [cellInAny, List.any_append, Bool.or_eq_false_iff] at this
        exact this.1

/-- Membership characterisation of the traversal: a cell is yielded exactly
when some rectangle of the list contains it and no rectangle of `prev`
does (all rectangles assumed to have non-negative dimension counts). -/
theorem mem_selectionCellsAux_iff {rects : List Rect} (hd : ∀ r ∈ rects, r.DimsNonneg)
    (prev : List Rect) (c : Cell) :
    c ∈ selectionCellsAux prev rects
      ↔ (∃ rect ∈ rects, cellInRect c rect = true) ∧ cellInAny prev c = false := by
  induction rects generalizing prev with
  | nil => simp [selectionCellsAux]
  | cons rect rest ih =>
      have hdr : rect.DimsNonneg := hd rect (by simp)
      have hdrest : ∀ r ∈ rest, r.DimsNonneg := fun r hr => hd r (by simp [hr])
      simp only [selectionCellsAux, List.mem_append, List.mem_filter,
        mem_rectCells_iff hdr, ih hdrest, List.mem_cons]
      constructor
      · rintro (⟨hin, hnp⟩ | ⟨⟨r, hr, hcr⟩, hnp⟩)
        · exact ⟨⟨rect, Or.inl rfl, hin⟩, by simpa using hnp⟩
        · simp only [cellInAny, List.any_append, Bool.or_eq_false_iff] at hnp
          exact ⟨⟨r, Or.inr hr, hcr⟩, hnp.1⟩
      · rintro ⟨⟨r, hr, hcr⟩, hnp⟩
        by_cases hin : cellInRect c rect = true
        · exact Or.inl ⟨hin, by simpa using hnp⟩
        · rcases hr with rfl | hr
          · exact absurd hcr hin
          · refine Or.inr ⟨⟨r, hr, hcr⟩, ?_⟩
            simp only [cellInAny, List.any_append, Bool.or_eq_false_iff]
            refine ⟨hnp, ?_⟩
            simpa using hin

/-- The traversal never yields the same cell twice. -/
theorem selectionCellsAux_nodup {rects : List Rect} (hd : ∀ r ∈ rects, r.DimsNonneg)
    (prev : List Rect) : (selectionCellsAux prev rects).Nodup := by
  induction rects generalizing prev with
  | nil => simp [selectionCellsAux]
  | cons rect rest ih =>
      have hdr : rect.DimsNonneg := hd rect (by simp)
      have hdrest : ∀ r ∈ rest, r.DimsNonneg := fun r hr => hd r (by simp [hr])
      apply List.Nodup.append
      · exact (rectCells_nodup rect).filter _
      · exact ih hdrest (prev ++ [rect])
      · intro c hc hc'
        have hin : cellInRect c rect = true :=
          (mem_rectCells_iff hdr).mp (List.mem_filter.mp hc).1
        have hnp := mem_selectionCellsAux_not_prev hc'
        simp only [cellInAny, List.any_append, Bool.or_eq_false_iff] at hnp
        have : cellInRect c rect = false := by simpa using hnp.2
        rw [hin] at this
        exact absurd this (by decide)

theorem mem_selectionCells_iff {rects : List Rect} (hd : ∀ r ∈ rects, r.DimsNonneg) (c : Cell) :
    c ∈ selectionCells rects ↔ ∃ rect ∈ rects, cellInRect c rect = true := by
  unfold selectionCells
  rw [mem_selectionCellsAux_iff hd [] c]
  simp [cellInAny]

theorem selectionCells_nodup {rects : List Rect} (hd : ∀ r ∈ rects, r.DimsNonneg) :
    (selectionCells rects).Nodup :=
  selectionCellsAux_nodup hd []

/-- The traversal's length is the number of distinct cells covered by any
rectangle of the list. -/
theorem selectionCells_length {rects : List Rect} (hd : ∀ r ∈ rects, r.DimsNonneg) :
    (selectionCells rects).length = ((rects.map rectCells).flatten.dedup).length := by
  have hmem : ∀ c : Cell, c ∈ selectionCells rects ↔ c ∈ (rects.map rectCells).flatten.dedup := by
    intro c
    rw [mem_selectionCells_iff hd c, List.mem_dedup, List.mem_flatten]
    constructor
    · rintro ⟨rect, hr, hcr⟩
      exact ⟨rectCells rect, List.mem_map.mpr ⟨rect, hr, rfl⟩,
        (mem_rectCells_iff (hd rect hr)).mpr hcr⟩
    · rintro ⟨l, hl, hcl⟩
      obtain ⟨rect, hr, rfl⟩ := List.mem_map.mp hl
      exact ⟨rect, hr, (mem_rectCells_iff (hd rect hr)).mp hcl⟩
  exact List.Perm.length_eq
    ((List.perm_ext_iff_of_nodup (selectionCells_nodup hd) (List.nodup_dedup _)).mpr hmem)

/-! ## Cache transparency of the mode expansion -/

theorem computeNumColumns_nonneg (d : GridData) : 0 ≤ computeNumColumns d :=
  Int.ofNat_nonneg _

theorem computeNumRows_nonneg (d : GridData) : 0 ≤ computeNumRows d :=
  Int.ofNat_nonneg _

theorem initHelperState_inv (d : GridData) : initHelperState.Inv d :=
  ⟨Or.inl rfl, Or.inl rfl⟩

theorem getNumColumnsS_eq {d : GridData} {st : HelperState} (h : st.Inv d) :
    (getNumColumnsS d st).1 = computeNumColumns d
    ∧ (getNumColumnsS d st).2.Inv d := by
  unfold getNumColumnsS
  by_cases hc : st.numColumns = -1
  · rw [if_neg (not_not_intro hc)]
    exact ⟨rfl, Or.inr rfl, h.2⟩
  · rw [if_pos hc]
    rcases h.1 with h1 | h1
    · exact absurd h1 hc
    · exact ⟨h1, h⟩

theorem getNumRowsS_eq {d : GridData} {st : HelperState} (h : st.Inv d) :
    (getNumRowsS d st).1 = computeNumRows d
    ∧ (getNumRowsS d st).2.Inv d := by
  unfold getNumRowsS
  by_cases hc : st.numRows = -1
  · rw [if_neg (not_not_intro hc)]
    exact ⟨rfl, h.1, Or.inr rfl⟩
  · rw [if_pos hc]
    rcases h.2 with h1 | h1
    · exact absurd h1 hc
    · exact ⟨h1, h⟩

theorem transformRectS_eq {d : GridData} {mode : SelectionMode} {rect : Rect}
    {st : HelperState} (h : st.Inv d) :
    (transformRectS d mode rect st).1 = transformRect d mode rect
    ∧ (transformRectS d mode rect st).2.Inv d := by
  cases mode with
  | row =>
      have hg := @getNumColumnsS_eq d st h
      cases hgeq : getNumColumnsS d st with
      | mk nc st' =>
          rw [hgeq] at hg
          simp only [transformRectS, transformRect, hgeq]
          exact ⟨by rw [show nc = computeNumColumns d from hg.1], hg.2⟩
  | column =>
      have hg := @getNumRowsS_eq d st h
      cases hgeq : getNumRowsS d st with
      | mk nr st' =>
          rw [hgeq] at hg
          simp only [transformRectS, transformRect, hgeq]
          exact ⟨by rw [show nr = computeNumRows d from hg.1], hg.2⟩
  | cell => exact ⟨rfl, h⟩
  | none => exact ⟨rfl, h⟩

theorem transformAllS_eq {d : GridData} {mode : SelectionMode} :
    ∀ (rects : List Rect) (st : HelperState), st.Inv d →
      (transformAllS d mode rects st).1 = rects.map (transformRect d mode)
      ∧ (transformAllS d mode rects st).2.Inv d := by
  intro rects
  induction rects with
  | nil => exact fun st h => ⟨rfl, h⟩
  | cons rect rest ih =>
      intro st h
      cases hstep : transformRectS d mode rect st with
      | mk r' st' =>
          have he := @transformRectS_eq d mode rect st h
          rw [hstep] at he
          have hr := ih st' he.2
          cases hrest : transformAllS d mode rest st' with
          | mk rs' st'' =>
              rw [hrest] at hr
              simp only [transformAllS, hstep, hrest, List.map_cons]
              exact ⟨by rw [show r' = transformRect d mode rect from he.1,
                show rs' = rest.map (transformRect d mode) from hr.1], hr.2⟩

theorem effectiveRects_eq_map (d : GridData) (mode : SelectionMode) (sels : List Rect) :
    effectiveRects d mode sels = sels.map (transformRect d mode) :=
  (transformAllS_eq sels initHelperState (initHelperState_inv d)).1

/-- Mode expansion of a normalised rectangle has non-negative dimension
counts (in `row`/`column` mode a count can be zero when the grid has no
data columns / no rows, but never negative). -/
theorem transformRect_dimsNonneg {d : GridData} {mode : SelectionMode} {rect : Rect}
    (h : rect.Normalized) : (transformRect d mode rect).DimsNonneg := by
  obtain ⟨h1, h2⟩ := h
  have hc := computeNumColumns_nonneg d
  have hr := computeNumRows_nonneg d
  cases mode with
  | row => exact ⟨by simp only [transformRect]; omega, by simp only [transformRect]; omega⟩
  | column => exact ⟨by simp only [transformRect]; omega, by simp only [transformRect]; omega⟩
  | cell => exact ⟨by simp only [transformRect]; omega, by simp only [transformRect]; omega⟩
  | none => exact ⟨by simp only [transformRect]; omega, by simp only [transformRect]; omega⟩

/-! ## The claims -/

/-- **C3**: the effective rectangle used during traversal is, per stored
region: in `row` mode `{r1, c1: 0, r2, c2: num_columns - 1}` where
`num_columns` counts schema fields excluding primary-key fields; in `column`
mode `{r1: 0, c1, r2: num_rows - 1, c2}` where `num_rows` is the number of
data rows; in `cell`/`none` mode the region unchanged — and both counts are
derived from the bound data on demand (first use) and cached for the rest of
the traversal. -/
theorem C3_mode_expansion (d : GridData) (sels : List Rect) :
    (∀ mode, effectiveRects d mode sels = sels.map (transformRect d mode))
    ∧ (∀ rect : Rect,
        transformRect d SelectionMode.row rect
          = ⟨rect.r1, 0, rect.r2, computeNumColumns d - 1⟩
        ∧ transformRect d SelectionMode.column rect
          = ⟨0, rect.c1, computeNumRows d - 1, rect.c2⟩
        ∧ transformRect d SelectionMode.cell rect = rect
        ∧ transformRect d SelectionMode.none rect = rect)
    ∧ computeNumColumns d
        = ((d.schema.fields.filter
            (fun name => !(primaryKeysOf d.schema).contains name)).length : Int)
    ∧ computeNumRows d = (d.data.nrows : Int)
    ∧ getNumColumnsS d initHelperState
        = (computeNumColumns d, ⟨computeNumColumns d, -1⟩)
    ∧ getNumRowsS d initHelperState
        = (computeNumRows d, ⟨-1, computeNumRows d⟩)
    ∧ (∀ st : HelperState, st.numColumns = computeNumColumns d →
        getNumColumnsS d st = (computeNumColumns d, st))
    ∧ (∀ st : HelperState, st.numRows = computeNumRows d →
        getNumRowsS d st = (computeNumRows d, st)) := by
  refine ⟨fun mode => effectiveRects_eq_map d mode sels,
    fun rect => ⟨rfl, rfl, rfl, rfl⟩, rfl, rfl, ?_, ?_, ?_, ?_⟩
  · simp [getNumColumnsS, initHelperState]
  · simp [getNumRowsS, initHelperState]
  · intro st hst
    have : st.numColumns ≠ -1 := by
      have := computeNumColumns_nonneg d; omega
    unfold getNumColumnsS
    rw [if_pos this, hst]
  · intro st hst
    have : st.numRows ≠ -1 := by
      have := computeNumRows_nonneg d; omega
    unfold getNumRowsS
    rw [if_pos this, hst]

/-- Witness for C3 at the example grid (`num_columns = 2`): a warm cache is
returned as-is, and row-mode expansion spans columns `0 .. 1`. -/
theorem C3_witness :
    getNumColumnsS exData ⟨2, -1⟩ = (2, ⟨2, -1⟩)
    ∧ effectiveRects exData SelectionMode.row [⟨1, 1, 2, 2⟩] = [⟨1, 0, 2, 1⟩] := by
  have h := C3_mode_expansion exData [⟨1, 1, 2, 2⟩]
  have hc : computeNumColumns exData = 2 := by decide
  constructor
  · have := h.2.2.2.2.2.2.1 ⟨2, -1⟩ (by rw [hc])
    rw [hc] at this
    exact this
  · rw [h.1 SelectionMode.row]
    decide

/-- **C6** (counterexample): with `selection_mode = 'none'`, `select(0, 0)` on
an empty selection set still appends a region — the selection set does not
stay unchanged, so mode `'none'` does not disable insertion in `select`. -/
theorem C6_counterexample :
    (select ⟨SelectionMode.none, [], false⟩ 0 0 Option.none Option.none
        ClearMode.none).selections = [⟨0, 0, 0, 0⟩]
    ∧ (select ⟨SelectionMode.none, [], false⟩ 0 0 Option.none Option.none
        ClearMode.none).selections ≠ ([] : List Rect) := by
  decide

/-- **C6** (amended): `select` never consults `selection_mode`; in
particular, while the mode is `'none'` it appends the normalised region
exactly as in any other mode. -/
theorem C6_amended (s : GridState) (row1 column1 row2 column2 : Int)
    (h : s.selection_mode = SelectionMode.none) :
    (select s row1 column1 (some row2) (some column2) ClearMode.none).selections
      = s.selections
        ++ [⟨min row1 row2, min column1 column2, max row1 row2, max column1 column2⟩] := by
  simp [select]

/-- Witness for the amended C6 at a concrete grid state in mode `'none'`. -/
theorem C6_witness :
    (select ⟨SelectionMode.none, [⟨0, 0, 0, 0⟩], false⟩ 1 2 (some 3) (some 4)
        ClearMode.none).selections = [⟨0, 0, 0, 0⟩, ⟨1, 2, 3, 4⟩] := by
  have h := C6_amended ⟨SelectionMode.none, [⟨0, 0, 0, 0⟩], false⟩ 1 2 3 4 rfl
  rw [h]
  decide

/-- **C7**: every rectangle stored in the selections list is normalised
(`r1 ≤ r2` and `c1 ≤ c2`) after every mutating operation: `select` with its
arguments in any order, and direct assignment through the validator. -/
theorem C7_normalized (s : GridState) (row1 column1 : Int) (row2 column2 : Option Int)
    (cm : ClearMode) (h : ∀ r ∈ s.selections, r.Normalized) :
    (∀ r ∈ (select s row1 column1 row2 column2 cm).selections, r.Normalized)
    ∧ (∀ sels : List Rect, ∀ r ∈ validate_selections sels, r.Normalized) := by
  constructor
  · intro r hr
    simp only [select, List.mem_append, List.mem_singleton] at hr
    rcases hr with hr | hr
    · cases cm with
      | all => simp at hr
      | current => exact h r (List.mem_of_mem_dropLast hr)
      | none => exact h r hr
    · subst hr
      exact ⟨min_le_max, min_le_max⟩
  · intro sels r hr
    simp only [validate_selections, List.mem_map] at hr
    obtain ⟨r0, _, rfl⟩ := hr
    exact ⟨min_le_max, min_le_max⟩

/-- Witness for C7: the rectangle appended by `select(5, 7, 2, 3)` is stored
as the normalised `{r1: 2, c1: 3, r2: 5, c2: 7}`. -/
theorem C7_witness :
    Rect.Normalized ⟨2, 3, 5, 7⟩ :=
  (C7_normalized ⟨SelectionMode.cell, [⟨0, 0, 1, 1⟩], false⟩ 5 7 (some 2) (some 3)
    ClearMode.none (by decide)).1 ⟨2, 3, 5, 7⟩ (by decide)

/-- **C8**: `_column_index_to_name` returns `None` for every out-of-range
column index; the indexed column space excludes all primary-key fields
(surrogate included), and an in-range index `i` resolves to the `i`-th
schema field name among the non-primary-key fields. -/
theorem C8_column_index_to_name (d : GridData) (i : Nat) :
    ((getColHeaders d.schema).length ≤ i → column_index_to_name d i = Option.none)
    ∧ (∀ h : i < (getColHeaders d.schema).length,
        column_index_to_name d i = some ((getColHeaders d.schema).get ⟨i, h⟩))
    ∧ getColHeaders d.schema
        = d.schema.fields.filter (fun name => !(primaryKeysOf d.schema).contains name)
    ∧ (∀ name ∈ getColHeaders d.schema, (primaryKeysOf d.schema).contains name = false) := by
  refine ⟨?_, ?_, rfl, ?_⟩
  · intro h
    unfold column_index_to_name
    rw [if_pos h]
  · intro h
    unfold column_index_to_name
    rw [if_neg (by omega)]
    simp [List.getElem?_eq_getElem h]
  · intro name hname
    have := (List.mem_filter.mp hname).2
    simpa using this

/-- Witness for C8 at the example grid: index 4 is out of range, index 1
resolves to `"B"` (headers are `["A", "B"]`, excluding `key`/`ipydguuid`). -/
theorem C8_witness :
    column_index_to_name exData 4 = Option.none
    ∧ column_index_to_name exData 1 = some "B" := by
  constructor
  · exact (C8_column_index_to_name exData 4).1 (by decide)
  · rw [(C8_column_index_to_name exData 1).2.1 (by decide)]
    rfl

/-- **C9**: in `select`, if exactly one of `row2`/`column2` is `None`, both
end coordinates fall back to `row1, column1`: the call behaves exactly as if
neither had been provided, and appends the single-cell region
`{row1, column1, row1, column1}`. -/
theorem C9_single_end_coordinate (s : GridState) (row1 column1 x : Int) (cm : ClearMode) :
    select s row1 column1 (some x) Option.none cm
      = select s row1 column1 Option.none Option.none cm
    ∧ select s row1 column1 Option.none (some x) cm
      = select s row1 column1 Option.none Option.none cm
    ∧ (select s row1 column1 (some x) Option.none cm).selections.getLast?
      = some ⟨row1, column1, row1, column1⟩ := by
  refine ⟨rfl, rfl, ?_⟩
  simp [select, List.getLast?_concat]

/-- **C10**: assigning `editable = True` while `selection_mode = 'none'`
switches the mode to `'cell'`; any assignment while the mode is not `'none'`
leaves the mode unchanged, and assigning `False` never changes the mode. -/
theorem C10_editable_validator (s : GridState) (v : Bool) :
    ((s.selection_mode = SelectionMode.none ∧ v = true) →
      (validate_editable s v).selection_mode = SelectionMode.cell)
    ∧ (s.selection_mode ≠ SelectionMode.none →
      (validate_editable s v).selection_mode = s.selection_mode)
    ∧ (v = false → (validate_editable s v).selection_mode = s.selection_mode)
    ∧ (validate_editable s v).editable = v := by
  obtain ⟨mode, sels, ed⟩ := s
  cases mode <;> cases v <;> simp [validate_editable]

/-- Witness for C10: enabling editing on a fresh grid in mode `'none'`
switches the mode to `'cell'`. -/
theorem C10_witness :
    (validate_editable ⟨SelectionMode.none, [], false⟩ true).selection_mode
      = SelectionMode.cell :=
  (C10_editable_validator ⟨SelectionMode.none, [], false⟩ true).1 ⟨rfl, rfl⟩

/-- **C1**: for every selection set of normalised regions and every selection
mode, traversal yields each physical cell at most once; a cell lying in the
intersection of an earlier-added effective rectangle and a later-added one is
yielded exactly once, within the output contributed by the rectangles before
the later one; and the total number of yielded cells equals the number of
distinct cells covered by any effective rectangle. -/
theorem C1_traversal_unique (d : GridData) (mode : SelectionMode) (sels : List Rect)
    (h : ∀ r ∈ sels, r.Normalized) :
    (helperAll d mode sels).Nodup
    ∧ (∀ c : Cell, c ∈ helperAll d mode sels
        ↔ ∃ rect ∈ effectiveRects d mode sels, cellInRect c rect = true)
    ∧ (helperAll d mode sels).length
        = (((effectiveRects d mode sels).map rectCells).flatten.dedup).length
    ∧ (∀ j k : Nat, ∀ hj : j < (effectiveRects d mode sels).length,
        ∀ hk : k < (effectiveRects d mode sels).length, j < k →
        ∀ c : Cell,
          cellInRect c ((effectiveRects d mode sels).get ⟨j, hj⟩) = true →
          cellInRect c ((effectiveRects d mode sels).get ⟨k, hk⟩) = true →
          (helperAll d mode sels).count c = 1
          ∧ c ∈ selectionCells ((effectiveRects d mode sels).take k)) := by
  have hd : ∀ r ∈ effectiveRects d mode sels, r.DimsNonneg := by
    intro r hr
    rw [effectiveRects_eq_map] at hr
    obtain ⟨r0, hr0, rfl⟩ := List.mem_map.mp hr
    exact transformRect_dimsNonneg (h r0 hr0)
  unfold helperAll
  refine ⟨selectionCells_nodup hd, fun c => mem_selectionCells_iff hd c,
    selectionCells_length hd, ?_⟩
  intro j k hj hk hjk c hcj hck
  have hmem : c ∈ selectionCells (effectiveRects d mode sels) :=
    (mem_selectionCells_iff hd c).mpr
      ⟨(effectiveRects d mode sels).get ⟨j, hj⟩, List.get_mem _ _ hj, hcj⟩
  constructor
  · exact List.count_eq_one_of_mem (selectionCells_nodup hd) hmem
  · have hdk : ∀ r ∈ (effectiveRects d mode sels).take k, r.DimsNonneg :=
      fun r hr => hd r (List.mem_of_mem_take hr)
    refine (mem_selectionCells_iff hdk c).mpr
      ⟨(effectiveRects d mode sels).get ⟨j, hj⟩, ?_, hcj⟩
    rw [List.mem_take_iff_getElem]
    exact ⟨j, by omega, by simp⟩

/-- Witness for C1: two overlapping cell-mode regions, `{0,0,1,1}` then
`{1,1,2,2}`; the shared cell `(1,1)` is yielded exactly once, before the
second region's contribution. -/
theorem C1_witness :
    (helperAll exData SelectionMode.cell [⟨0, 0, 1, 1⟩, ⟨1, 1, 2, 2⟩]).count ⟨1, 1⟩ = 1
    ∧ (⟨1, 1⟩ : Cell) ∈ selectionCells
        ((effectiveRects exData SelectionMode.cell [⟨0, 0, 1, 1⟩, ⟨1, 1, 2, 2⟩]).take 1) :=
  (C1_traversal_unique exData SelectionMode.cell [⟨0, 0, 1, 1⟩, ⟨1, 1, 2, 2⟩]
    (by decide)).2.2.2 0 1 (by decide) (by decide) (by decide) ⟨1, 1⟩ (by decide) (by decide)

/-- **C2**: in `cell` mode, a single `select(r1, c1, r2, c2)` with `r1 ≤ r2`
and `c1 ≤ c2` on an empty selection set stores exactly `{r1, c1, r2, c2}`,
and traversal yields exactly `(r2-r1+1)*(c2-c1+1)` cells in row-major order:
with `width = c2-c1+1`, the `i`-th yielded cell is
`(r1 + i div width, c1 + i mod width)`, and every yielded cell lies within
`[r1, r2] × [c1, c2]`. -/
theorem C2_cell_mode_single_select (d : GridData) (r1 c1 r2 c2 : Int)
    (h1 : r1 ≤ r2) (h2 : c1 ≤ c2) :
    (select ⟨SelectionMode.cell, [], false⟩ r1 c1 (some r2) (some c2)
        ClearMode.none).selections = [⟨r1, c1, r2, c2⟩]
    ∧ helperAll d SelectionMode.cell [⟨r1, c1, r2, c2⟩]
        = (List.range (((r2 - r1 + 1) * (c2 - c1 + 1)).toNat)).map
            (fun i => ⟨r1 + ((i / (c2 - c1 + 1).toNat : Nat) : Int),
                       c1 + ((i % (c2 - c1 + 1).toNat : Nat) : Int)⟩)
    ∧ (helperAll d SelectionMode.cell [⟨r1, c1, r2, c2⟩]).length
        = ((r2 - r1 + 1) * (c2 - c1 + 1)).toNat
    ∧ (∀ cell ∈ helperAll d SelectionMode.cell [⟨r1, c1, r2, c2⟩],
        r1 ≤ cell.r ∧ cell.r ≤ r2 ∧ c1 ≤ cell.c ∧ cell.c ≤ c2) := by
  have hsels : (select ⟨SelectionMode.cell, [], false⟩ r1 c1 (some r2) (some c2)
      ClearMode.none).selections = [⟨r1, c1, r2, c2⟩] := by
    simp [select, min_eq_left h1, max_eq_right h1, min_eq_left h2, max_eq_right h2]
  have heff : effectiveRects d SelectionMode.cell [⟨r1, c1, r2, c2⟩]
      = [⟨r1, c1, r2, c2⟩] := by
    rw [effectiveRects_eq_map]; rfl
  have hw : (((c2 - c1 + 1).toNat : Nat) : Int) = c2 - c1 + 1 :=
    Int.toNat_of_nonneg (by omega)
  have hwpos : 0 < (c2 - c1 + 1).toNat := by omega
  have hmap : helperAll d SelectionMode.cell [⟨r1, c1, r2, c2⟩]
      = (List.range (((r2 - r1 + 1) * (c2 - c1 + 1)).toNat)).map
          (fun i => ⟨r1 + ((i / (c2 - c1 + 1).toNat : Nat) : Int),
                     c1 + ((i % (c2 - c1 + 1).toNat : Nat) : Int)⟩) := by
    unfold helperAll
    rw [heff]
    have hone : selectionCells [(⟨r1, c1, r2, c2⟩ : Rect)]
        = rectCells ⟨r1, c1, r2, c2⟩ := by
      simp [selectionCells, selectionCellsAux, cellInAny]
    rw [hone, rectCells_eq_map]
    have hsize : rectSize (⟨r1, c1, r2, c2⟩ : Rect)
        = ((r2 - r1 + 1) * (c2 - c1 + 1)).toNat := rfl
    rw [hsize]
    apply List.map_congr_left
    intro i hi
    have hdecomp : ((i : Nat) : Int)
        = (c2 - c1 + 1) * ((i / (c2 - c1 + 1).toNat : Nat) : Int)
          + ((i % (c2 - c1 + 1).toNat : Nat) : Int) := by
      calc ((i : Nat) : Int)
          = (((c2 - c1 + 1).toNat * (i / (c2 - c1 + 1).toNat)
              + i % (c2 - c1 + 1).toNat : Nat) : Int) := by
            rw [Nat.div_add_mod]
        _ = (((c2 - c1 + 1).toNat : Nat) : Int)
              * ((i / (c2 - c1 + 1).toNat : Nat) : Int)
              + ((i % (c2 - c1 + 1).toNat : Nat) : Int) := by
            push_cast
            ring
        _ = (c2 - c1 + 1) * ((i / (c2 - c1 + 1).toNat : Nat) : Int)
              + ((i % (c2 - c1 + 1).toNat : Nat) : Int) := by
            rw [hw]
    have hmodlt : i % (c2 - c1 + 1).toNat < (c2 - c1 + 1).toNat :=
      Nat.mod_lt _ hwpos
    obtain ⟨hq, hm⟩ := fdiv_fmod_unique
      (C := c2 - c1 + 1) (q := ((i / (c2 - c1 + 1).toNat : Nat) : Int))
      (r := ((i % (c2 - c1 + 1).toNat : Nat) : Int))
      (by omega) (by omega) (by omega) hdecomp
    simp only [rectCell, Cell.mk.injEq]
    exact ⟨by rw [hq], by rw [hm]⟩
  refine ⟨hsels, hmap, by rw [hmap]; simp, ?_⟩
  intro cell hcell
  have hd : ∀ r ∈ effectiveRects d SelectionMode.cell [(⟨r1, c1, r2, c2⟩ : Rect)],
      r.DimsNonneg := by
    rw [heff]
    intro r hr
    rw [List.mem_singleton] at hr
    subst hr
    exact ⟨show (0 : Int) ≤ r2 - r1 + 1 by omega, show (0 : Int) ≤ c2 - c1 + 1 by omega⟩
  have := (mem_selectionCells_iff hd cell).mp hcell
  rw [heff] at this
  obtain ⟨rect, hrect, hcr⟩ := this
  rw [List.mem_singleton] at hrect
  subst hrect
  simpa [cellInRect] using hcr

/-- Witness for C2 at the spec's concrete scenario: `select(1, 0, 2, 1)` in
cell mode yields `[(1,0), (1,1), (2,0), (2,1)]`. -/
theorem C2_witness :
    helperAll exData SelectionMode.cell [⟨1, 0, 2, 1⟩]
      = [⟨1, 0⟩, ⟨1, 1⟩, ⟨2, 0⟩, ⟨2, 1⟩]
    ∧ (helperAll exData SelectionMode.cell [⟨1, 0, 2, 1⟩]).length = 4 := by
  have h := C2_cell_mode_single_select exData 1 0 2 1 (by decide) (by decide)
  constructor
  · rw [h.2.1]; decide
  · rw [h.2.2.1]
    decide

/-! ## Primary-key resolution (C5) -/

theorem filter_range_beq (i : Nat) :
    ∀ n, i < n → (List.range n).filter (fun j => j == i) = [i] := by
  intro n
  induction n with
  | zero => omega
  | succ m ih =>
      intro hi
      rw [List.range_succ, List.filter_append]
      by_cases hc : i < m
      · rw [ih hc]
        have : (m == i) = false := by
          simp only [beq_eq_false_iff_ne]
          omega
        simp [this]
      · have him : i = m := by omega
        subst him
        have hnil : (List.range i).filter (fun j => j == i) = [] := by
          rw [List.filter_eq_nil_iff]
          intro a ha
          have := List.mem_range.mp ha
          simp only [beq_iff_eq]
          omega
        simp [hnil]

theorem filter_range_eq_single {n i : Nat} {p : Nat → Bool} (hi : i < n)
    (h : ∀ j, j < n → (p j = true ↔ j = i)) :
    (List.range n).filter p = [i] := by
  have hcong : (List.range n).filter p = (List.range n).filter (fun j => j == i) := by
    apply List.filter_congr
    intro a ha
    have ha' := List.mem_range.mp ha
    cases hb : p a with
    | true =>
        have := (h a ha').mp hb
        simp [this]
    | false =>
        have hne : a ≠ i := by
          intro he
          have hpe := (h a ha').mpr he
          rw [hpe] at hb
          exact Bool.noConfusion hb
        symm
        simpa using hne
  rw [hcong]
  exact filter_range_beq i n hi

/-- **C5**: `_get_row_index_of_primary_key` on a key value matching exactly
one row returns the one-element list of that row's ordinal; on an absent key
returns the empty list; and on a key-arity mismatch (against the
surrogate-excluded primary key) raises the length-mismatch `ValueError`.
The function is read-only: it returns ordinals and never touches the data. -/
theorem C5_primary_key_resolution (d : GridData) (value : List CellValue) :
    (value.length ≠ ((primaryKeysOf d.schema).dropLast).length →
      get_row_index_of_primary_key d value
        = Except.error
          "The provided primary key value must be the same length as the primary key.")
    ∧ (value.length = ((primaryKeysOf d.schema).dropLast).length →
        (∀ i : Nat, i < d.data.nrows →
          (∀ j : Nat, j < d.data.nrows →
            (rowMatchesKey d ((primaryKeysOf d.schema).dropLast) value j = true ↔ j = i)) →
          get_row_index_of_primary_key d value = Except.ok [i])
        ∧ ((∀ j : Nat, j < d.data.nrows →
            rowMatchesKey d ((primaryKeysOf d.schema).dropLast) value j = false) →
          get_row_index_of_primary_key d value = Except.ok [])) := by
  refine ⟨?_, fun h => ⟨?_, ?_⟩⟩
  · intro h
    unfold get_row_index_of_primary_key
    rw [if_pos h]
  · intro i hi huniq
    unfold get_row_index_of_primary_key
    rw [if_neg (not_not_intro h)]
    congr 1
    exact filter_range_eq_single hi fun j hj => huniq j hj
  · intro habs
    unfold get_row_index_of_primary_key
    rw [if_neg (not_not_intro h)]
    congr 1
    rw [List.filter_eq_nil_iff]
    intro a ha
    have := habs a (List.mem_range.mp ha)
    simp [this]

/-- Witness for C5 at the example grid: key `"Two"` resolves to row 1, the
absent key `"Nay"` to `[]`, and a two-component key value raises the
length-mismatch error. -/
theorem C5_witness :
    get_row_index_of_primary_key exData [CellValue.str "Two"] = Except.ok [1]
    ∧ get_row_index_of_primary_key exData [CellValue.str "Nay"] = Except.ok []
    ∧ get_row_index_of_primary_key exData [CellValue.str "a", CellValue.str "b"]
      = Except.error
        "The provided primary key value must be the same length as the primary key." := by
  refine ⟨?_, ?_, ?_⟩
  · exact ((C5_primary_key_resolution exData [CellValue.str "Two"]).2 (by decide)).1
      1 (by decide) (by decide)
  · exact ((C5_primary_key_resolution exData [CellValue.str "Nay"]).2 (by decide)).2
      (by decide)
  · exact (C5_primary_key_resolution exData
      [CellValue.str "a", CellValue.str "b"]).1 (by decide)

/-! ## Cell writes (C4) -/

theorem getElem?_set_self_of_lt {α : Type} {l : List α} {i : Nat} {a : α}
    (h : i < l.length) : (l.set i a)[i]? = some a := by
  rw [List.getElem?_set_self]
  simp [h]

/-- `find?` over a map that preserves the first component commutes with the
map, for a predicate that only looks at the first component. -/
theorem find?_map_pres (f : ColName × List CellValue → ColName × List CellValue)
    (hf : ∀ p, (f p).1 = p.1) (q : ColName) :
    ∀ cols : List (ColName × List CellValue),
      (cols.map f).find? (fun p => p.1 == q) = (cols.find? (fun p => p.1 == q)).map f := by
  intro cols
  induction cols with
  | nil => rfl
  | cons p rest ih =>
      simp only [List.map_cons, List.find?]
      rw [hf p]
      cases hq : (p.1 == q) with
      | true => rfl
      | false => exact ih

theorem getCol_setCell (df : DataFrame) (n m : ColName) (r : Nat) (v : CellValue) :
    (df.setCell n r v).getCol m
      = (df.getCol m).map (fun l => if m == n then l.set r v else l) := by
  unfold DataFrame.setCell DataFrame.getCol
  rw [find?_map_pres (fun p => if p.1 == n then (p.1, p.2.set r v) else p)
    (fun p => by by_cases h : (p.1 == n) = true <;> simp [h]) m df.cols]
  cases hf : df.cols.find? (fun p => p.1 == m) with
  | none => rfl
  | some y =>
      have hym : y.1 = m := by
        have := List.find?_some hf
        simpa using this
      by_cases hn : (m == n) = true
      · have hyn : y.1 = n := by rw [hym]; simpa using hn
        simp [hyn, hn]
      · have hyn : y.1 ≠ n := by rw [hym]; simpa using hn
        simp [hyn, hn]

theorem getCell_of_getCol {df : DataFrame} {n : ColName} {l : List CellValue}
    (h : df.getCol n = some l) (j : Nat) : df.getCell n j = l[j]? := by
  unfold DataFrame.getCell
  rw [h]
  rfl

theorem hasColumn_of_getCol {df : DataFrame} {n : ColName} {l : List CellValue}
    (h : df.getCol n = some l) : df.hasColumn n = true := by
  unfold DataFrame.getCol at h
  cases hf : df.cols.find? (fun p => p.1 == n) with
  | none => rw [hf] at h; exact Option.noConfusion h
  | some y =>
      have hy := List.find?_some hf
      exact List.any_eq_true.mpr ⟨y, List.mem_of_find?_eq_some hf, hy⟩

theorem getCol_eq_some_of_hasColumn {df : DataFrame} {n : ColName}
    (h : df.hasColumn n = true) (hwf : df.WF) :
    ∃ l, df.getCol n = some l ∧ l.length = df.nrows := by
  unfold DataFrame.hasColumn at h
  obtain ⟨x, hx, hpx⟩ := List.any_eq_true.mp h
  cases hf : df.cols.find? (fun p => p.1 == n) with
  | none =>
      rw [List.find?_eq_none] at hf
      exact absurd hpx (hf x hx)
  | some y =>
      refine ⟨y.2, ?_, hwf.2 y (List.mem_of_find?_eq_some hf)⟩
      unfold DataFrame.getCol
      rw [hf]
      rfl

theorem setCellStep_hasCol {column : ColName} {v : CellValue} {g : GridData}
    {ns : List CellChange} {b : Bool} {i : Nat}
    (hcol : g.data.hasColumn column = true) :
    setCellStep column v (g, ns, b) i
      = ({ g with data := g.data.setCell column i v },
          ns ++ [notify_cell_change g i column v], b) := by
  unfold setCellStep
  dsimp only
  rw [if_pos hcol]
  rfl

/-- Behaviour of the write loop when the target column exists: each listed
row gets the new value, one notification per row, the outcome flag is kept,
and the schema and previously-written cells survive. -/
theorem foldl_setCellStep_ok (column : ColName) (v : CellValue) :
    ∀ (rows : List Nat) (g : GridData) (ns : List CellChange) (b : Bool)
      (l : List CellValue),
      g.data.getCol column = some l →
      (∀ i ∈ rows, i < l.length) →
      ∃ g' l',
        rows.foldl (setCellStep column v) (g, ns, b)
          = (g', ns ++ rows.map (fun i =>
              { row := i, column := column,
                column_index := column_name_to_index g column, value := v }), b)
        ∧ g'.data.getCol column = some l'
        ∧ l'.length = l.length
        ∧ g'.schema = g.schema
        ∧ (∀ i ∈ rows, g'.data.getCell column i = some v)
        ∧ (∀ i : Nat, g.data.getCell column i = some v →
            g'.data.getCell column i = some v) := by
  intro rows
  induction rows with
  | nil =>
      intro g ns b l hl _
      exact ⟨g, l, by simp, hl, rfl, rfl, by simp, fun i h => h⟩
  | cons i rest ih =>
      intro g ns b l hl hbound
      have hcol : g.data.hasColumn column = true := hasColumn_of_getCol hl
      have hii : i < l.length := hbound i (by simp)
      have hl1 : ({ g with data := g.data.setCell column i v } : GridData).data.getCol column
          = some (l.set i v) := by
        show (g.data.setCell column i v).getCol column = _
        rw [getCol_setCell, hl]
        simp
      have hbound1 : ∀ j ∈ rest, j < (l.set i v).length := by
        intro j hj
        rw [List.length_set]
        exact hbound j (by simp [hj])
      obtain ⟨g', l', hfold, hgl', hlen, hsch, hwrites, hpres⟩ :=
        ih { g with data := g.data.setCell column i v }
          (ns ++ [notify_cell_change g i column v]) b (l.set i v) hl1 hbound1
      have hread1 : ({ g with data := g.data.setCell column i v } : GridData).data.getCell
          column i = some v := by
        rw [getCell_of_getCol hl1]
        exact getElem?_set_self_of_lt hii
      have hpres1 : ∀ j : Nat, g.data.getCell column j = some v →
          ({ g with data := g.data.setCell column i v } : GridData).data.getCell column j
            = some v := by
        intro j hj
        rw [getCell_of_getCol hl] at hj
        rw [getCell_of_getCol hl1]
        by_cases hij : i = j
        · subst hij
          exact getElem?_set_self_of_lt hii
        · rw [List.getElem?_set_ne hij]
          exact hj
      refine ⟨g', l', ?_, hgl', by rw [hlen, List.length_set], hsch, ?_, ?_⟩
      · rw [List.foldl_cons, setCellStep_hasCol hcol, hfold]
        have hnot : notify_cell_change g i column v
            = { row := i, column := column,
                column_index := column_name_to_index g column, value := v } := rfl
        have hcni : column_name_to_index
            { data := g.data.setCell column i v, schema := g.schema } column
            = column_name_to_index g column := rfl
        rw [hnot, hcni]
        simp
      · intro j hj
        rcases List.mem_cons.mp hj with rfl | hj
        · exact hpres j hread1
        · exact hwrites j hj
      · intro j hj
        exact hpres j (hpres1 j hj)

/-- Behaviour of the write loop when the target column is missing: nothing
is written, nothing notified, and a non-empty row list flips the outcome to
`False`. -/
theorem foldl_setCellStep_noCol (column : ColName) (v : CellValue) :
    ∀ (rows : List Nat) (g : GridData) (ns : List CellChange) (b : Bool),
      g.data.hasColumn column = false →
      rows.foldl (setCellStep column v) (g, ns, b)
        = (g, ns, if rows.isEmpty then b else false) := by
  intro rows
  induction rows with
  | nil => intro g ns b _; simp
  | cons i rest ih =>
      intro g ns b h
      have hstep : setCellStep column v (g, ns, b) i = (g, ns, false) := by
        unfold setCellStep
        dsimp only
        rw [if_neg (by simp [h])]
      rw [List.foldl_cons, hstep, ih g ns false h]
      simp

/-- Matching row ordinals are genuine row ordinals of the frame. -/
theorem rows_bound_of_ok {d : GridData} {pk : List CellValue} {rows : List Nat}
    (hrows : get_row_index_of_primary_key d pk = Except.ok rows) :
    ∀ i ∈ rows, i < d.data.nrows := by
  unfold get_row_index_of_primary_key at hrows
  by_cases hl : pk.length ≠ ((primaryKeysOf d.schema).dropLast).length
  · rw [if_pos hl] at hrows
    exact absurd hrows (by simp)
  · rw [if_neg hl] at hrows
    simp only [Except.ok.injEq] at hrows
    subst hrows
    intro i hi
    exact List.mem_range.mp (List.mem_of_mem_filter hi)

/-- **C4**: `set_cell_value` returns `False` without mutating anything or
notifying anyone when no row matches the primary key; otherwise it writes
`new_value` to every matching row that has the target column, fires exactly
one cell-change notification per row written, and returns `True` only if
every matching row had the target column (the rows that were written stay
written even when the aggregate result is `False`). -/
theorem C4_set_cell_value (d : GridData) (column : ColName) (pk : List CellValue)
    (v : CellValue) (rows : List Nat)
    (hrows : get_row_index_of_primary_key d pk = Except.ok rows)
    (hwf : d.data.WF) :
    (rows = [] → set_cell_value d column pk v = Except.ok (d, [], false))
    ∧ (rows ≠ [] → d.data.hasColumn column = true →
        ∃ d' : GridData,
          set_cell_value d column pk v
            = Except.ok (d',
                rows.map (fun i =>
                  { row := i, column := column,
                    column_index := column_name_to_index d column, value := v }),
                true)
          ∧ (∀ i ∈ rows, d'.data.getCell column i = some v)
          ∧ d'.schema = d.schema)
    ∧ (rows ≠ [] → d.data.hasColumn column = false →
        set_cell_value d column pk v = Except.ok (d, [], false))
    ∧ (∀ (g' : GridData) (ns : List CellChange) (b : Bool),
        set_cell_value d column pk v = Except.ok (g', ns, b) → b = true →
        rows ≠ [] ∧ d.data.hasColumn column = true) := by
  have hred : set_cell_value d column pk v
      = if rows.isEmpty then Except.ok (d, [], false)
        else Except.ok (rows.foldl (setCellStep column v) (d, [], true)) := by
    unfold set_cell_value
    rw [hrows]
  refine ⟨?_, ?_, ?_, ?_⟩
  · intro h
    subst h
    simpa using hred
  · intro hne hcol
    obtain ⟨l, hl, hlen⟩ := getCol_eq_some_of_hasColumn hcol hwf
    have hbound : ∀ i ∈ rows, i < l.length := by
      intro i hi
      rw [hlen]
      exact rows_bound_of_ok hrows i hi
    obtain ⟨g', l', hfold, _, _, hsch, hwrites, _⟩ :=
      foldl_setCellStep_ok column v rows d [] true l hl hbound
    refine ⟨g', ?_, hwrites, hsch⟩
    rw [hred, if_neg (by simpa using hne), hfold]
    simp
  · intro hne hcol
    rw [hred, if_neg (by simpa using hne),
      foldl_setCellStep_noCol column v rows d [] true hcol]
    cases rows with
    | nil => exact absurd rfl hne
    | cons a as => simp
  · intro g' ns b heq hb
    subst hb
    by_cases hne : rows = []
    · subst hne
      rw [hred] at heq
      simp at heq
    · refine ⟨hne, ?_⟩
      by_cases hcol : d.data.hasColumn column = true
      · exact hcol
      · have hcol' : d.data.hasColumn column = false := by simpa using hcol
        rw [hred, if_neg (by simpa using hne),
          foldl_setCellStep_noCol column v rows d [] true hcol'] at heq
        cases rows with
        | nil => exact absurd rfl hne
        | cons a as => simp at heq

/-- Witness for C4 at the example grid: writing `99` into column `"A"` of
the row keyed `"Two"` succeeds, fires the single expected notification, and
the written cell reads back `99`. -/
theorem C4_witness :
    ∃ d' : GridData,
      set_cell_value exData "A" [CellValue.str "Two"] (CellValue.int 99)
        = Except.ok (d',
            [{ row := 1, column := "A", column_index := some 0,
               value := CellValue.int 99 }], true)
      ∧ d'.data.getCell "A" 1 = some (CellValue.int 99) := by
  obtain ⟨d', heq, hwrites, _⟩ :=
    (C4_set_cell_value exData "A" [CellValue.str "Two"] (CellValue.int 99) [1]
      rfl (by decide)).2.1 (by decide) (by decide)
  refine ⟨d', ?_, hwrites 1 (by simp)⟩
  have hidx : column_name_to_index exData "A" = some 0 := by decide
  rw [heq]
  simp only [List.map_cons, List.map_nil, hidx]

end IpyDataGrid
